import Mathlib

/-!
Verification development for the PhishShield website frontend
(`frontend/script.js`).  The scan-orchestration controller is embedded
shallowly: the mutable page state (statistics object, session history
array, control enabled/disabled flags, notification container, pending
timers) becomes an explicit `AppState` record, the DOM event handlers
become a `step` function over user-visible events, and the async
`checkUrl` lifecycle is split at its suspension point into the
synchronous prefix (`checkUrlStart`, up to and including dispatching the
fetch) and the continuation that runs when the fetch settles
(`checkUrlComplete`, including the catch and finally blocks).
-/

set_option autoImplicit false

namespace PhishShield

/-- One entry of the session scan history: `addToSessionHistory`
(script.js 197-215) builds these from the checked URL, the verdict, and
`new Date().toISOString()`.  Timestamps are modelled as natural clock
values. -/
structure HistoryItem where
  url : String
  isPhishing : Bool
  timestamp : Nat
  deriving DecidableEq

/-- The `statistics` tracking object of script.js 77-81. -/
structure Statistics where
  totalScans : Nat
  safeUrls : Nat
  phishingUrls : Nat
  deriving DecidableEq

/-- The list update performed by `addToSessionHistory` (script.js
197-215): `unshift` the new item to the front, then `slice(0, 10)` when
the length exceeds 10. -/
def addToSessionHistoryList (item : HistoryItem) (h : List HistoryItem) :
    List HistoryItem :=
  let h2 := item :: h
  if 10 < h2.length then h2.take 10 else h2

/-- ASCII letter, by code point. -/
def isAsciiAlpha (c : Char) : Bool :=
  decide (97 ≤ c.toNat ∧ c.toNat ≤ 122) || decide (65 ≤ c.toNat ∧ c.toNat ≤ 90)

/-- ASCII digit, by code point. -/
def isAsciiDigit (c : Char) : Bool :=
  decide (48 ≤ c.toNat ∧ c.toNat ≤ 57)

/-- A character allowed in a URL scheme after its first letter. -/
def isSchemeChar (c : Char) : Bool :=
  isAsciiAlpha c || isAsciiDigit c || c == '+' || c == '-' || c == '.'

/-- Accumulates scheme characters until the first colon; fails when a
non-scheme character appears before any colon or the input ends without
a colon. -/
def schemeSplitAux : List Char → List Char → Option (List Char × List Char)
  | _, [] => none
  | acc, c :: rest =>
    if c == ':' then some (acc.reverse, rest)
    else if isSchemeChar c then schemeSplitAux (c :: acc) rest
    else none

/-- Splits `scheme:rest` when the input begins with an ASCII letter
followed by scheme characters and a colon. -/
def schemeSplit (l : List Char) : Option (List Char × List Char) :=
  match l with
  | [] => none
  | c :: rest => if isAsciiAlpha c then schemeSplitAux [c] rest else none

/-- The special network schemes of the WHATWG URL standard (those whose
URLs require a host).  `file:` is treated with the always-accepting
schemes below because its host may be empty. -/
def specialSchemes : List String := ["http", "https", "ws", "wss", "ftp"]

/-- A code point that makes a special-scheme host invalid, following the
standard's forbidden domain code points: C0 controls and space
(below 33), `#` 35, `%` 37, `/` 47, `:` 58, `<` 60, `>` 62, `?` 63,
`@` 64, `[` 91, `\` 92, `]` 93, `^` 94, `|` 124, delete 127. -/
def forbiddenHostChar (c : Char) : Bool :=
  decide (c.toNat < 33) || decide (c.toNat = 35) || decide (c.toNat = 37) ||
  decide (c.toNat = 47) || decide (c.toNat = 58) || decide (c.toNat = 60) ||
  decide (c.toNat = 62) || decide (c.toNat = 63) || decide (c.toNat = 64) ||
  decide (c.toNat = 91) || decide (c.toNat = 92) || decide (c.toNat = 93) ||
  decide (c.toNat = 94) || decide (c.toNat = 124) || decide (c.toNat = 127)

/-- A slash as treated by the special-authority-slashes parser state:
`/` or `\`. -/
def isSlashChar (c : Char) : Bool :=
  c == '/' || c == '\\'

/-- A character ending the authority section: `/`, `\`, `?` or `#`. -/
def isAuthorityDelim (c : Char) : Bool :=
  c == '/' || c == '\\' || c == '?' || c == '#'

/-- Modelled from the spec: `isValidUrl` (script.js 396-403) delegates
to the platform URL constructor (`new URL(string)` inside try/catch),
which is not part of this repository.  This models the constructor's
accept/reject behaviour per the WHATWG URL standard: the input must
begin with an ASCII-letter-initial scheme followed by a colon; for the
special network schemes the text after the optional slashes must carry a
nonempty host free of forbidden code points (with optional userinfo
before `@` and an optional numeric port after `:`); every other scheme
(including `file:` and opaque-path schemes such as `mailto:`) parses
successfully. -/
def urlConstructorAccepts (s : String) : Bool :=
  match schemeSplit s.data with
  | none => false
  | some (scheme, rest) =>
    let schemeStr := String.mk (scheme.map Char.toLower)
    if specialSchemes.contains schemeStr then
      let afterSlashes := rest.dropWhile isSlashChar
      let authority := afterSlashes.takeWhile (fun c => !isAuthorityDelim c)
      let hostPort := (authority.reverse.takeWhile (fun c => !(c == '@'))).reverse
      let host := hostPort.takeWhile (fun c => !(c == ':'))
      let port := (hostPort.dropWhile (fun c => !(c == ':'))).drop 1
      !host.isEmpty && host.all (fun c => !forbiddenHostChar c) &&
        port.all isAsciiDigit
    else
      true

/-- `isValidUrl` (script.js 396-403): `new URL(string)` in a try/catch,
true exactly when the constructor does not throw. -/
def isValidUrl (string : String) : Bool :=
  urlConstructorAccepts string

/-- ECMAScript whitespace as removed by `String.prototype.trim`:
TAB through CR (9-13), space 32, no-break space 160, line and paragraph
separators, and the byte-order mark. -/
def isJsWhitespace (c : Char) : Bool :=
  decide (9 ≤ c.toNat ∧ c.toNat ≤ 13) || decide (c.toNat = 32) ||
  decide (c.toNat = 160) || decide (c.toNat = 8232) ||
  decide (c.toNat = 8233) || decide (c.toNat = 65279)

/-- The JavaScript `trim()` call of script.js 128: drop leading and
trailing whitespace. -/
def jsTrim (s : String) : String :=
  String.mk (((s.data.dropWhile isJsWhitespace).reverse.dropWhile
    isJsWhitespace).reverse)

/-- The spec's validation error taxonomy (section 7): empty input after
trimming, or input the URL check rejects. -/
inductive ValidationError where
  | emptyInput
  | invalidFormat
  deriving DecidableEq

/-- The validation prefix of `checkUrl` (script.js 128-137): trim the
raw input, reject the empty string, reject what `isValidUrl` rejects,
otherwise continue with the trimmed URL. -/
def validate (raw : String) : Except ValidationError String :=
  let url := jsTrim raw
  if url = "" then Except.error ValidationError.emptyInput
  else if !isValidUrl url then Except.error ValidationError.invalidFormat
  else Except.ok url

/-- A character the spec-level grammar allows in a host name. -/
def specHostChar (c : Char) : Bool :=
  isAsciiAlpha c || isAsciiDigit c || c == '.' || c == '-'

/-- A character the spec-level grammar allows in a path. -/
def specPathChar (c : Char) : Bool :=
  isAsciiAlpha c || isAsciiDigit c || c == '/' || c == '.' || c == '-' ||
  c == '_' || c == '~'

/-- The spec's words (section 4.1): generic URL grammar of "scheme +
authority", `scheme://host/path` with an optional path.  Stated as an
executable predicate so it can be compared with the code's
`isValidUrl`. -/
def specSchemeAuthority (s : String) : Bool :=
  match schemeSplit s.data with
  | none => false
  | some (_, rest) =>
    if rest.take 2 = ['/', '/'] then
      let tail := rest.drop 2
      let host := tail.takeWhile (fun c => !(c == '/'))
      let path := tail.dropWhile (fun c => !(c == '/'))
      !host.isEmpty && host.all specHostChar && path.all specPathChar
    else false

/-- Observable milestones of one `checkUrl` lifecycle, recorded in the
order the code performs them, to state ordering properties. -/
inductive Action where
  | requestSent
  | responseResolved
  | verdictRendered
  | historyUpdated
  | statsUpdated
  deriving DecidableEq

/-- The page state script.js closes over: the input control, the check
button (enabled flag and label), loading/result/error containers, the
statistics object, the session history array and its rendered view, the
announcement banner with its persisted flag, plus instrumentation for
the proofs — a count of dispatched classification requests, the number
of requests currently awaiting a response, the URL of the request in
flight, how often the `finally` cleanup ran, the action trace, the
pending `setTimeout` auto-hide timers (absolute fire times) and the
current clock. -/
structure AppState where
  urlInputValue : String
  urlInputDisabled : Bool
  checkButtonDisabled : Bool
  checkButtonLabel : String
  loadingVisible : Bool
  errorVisible : Bool
  errorMessage : String
  errorIsSuccess : Bool
  resultVisible : Bool
  resultIsPhishing : Option Bool
  statistics : Statistics
  sessionHistory : List HistoryItem
  displayedHistory : List HistoryItem
  historyVisible : Bool
  bannerVisible : Bool
  announcementClosedFlag : Bool
  requestsSent : Nat
  requestsInFlight : Nat
  pendingUrl : String
  cleanupRuns : Nat
  trace : List Action
  hideTimers : List Nat
  now : Nat
  deriving DecidableEq

/-- Default label of the check button (script.js 188). -/
def defaultCheckLabel : String := "Check URL"

/-- Label of the check button while a request runs (script.js 143). -/
def checkingLabel : String := "Checking..."

/-- `showLoading` (script.js 282-288). -/
def showLoading (s : AppState) : AppState :=
  { s with loadingVisible := true }

/-- `hideLoading` (script.js 293-296). -/
def hideLoading (s : AppState) : AppState :=
  { s with loadingVisible := false }

/-- `hideResult` (script.js 308-310). -/
def hideResult (s : AppState) : AppState :=
  { s with resultVisible := false }

/-- `hideError` (script.js 344-346): only hides the container; it does
not cancel any pending timer. -/
def hideError (s : AppState) : AppState :=
  { s with errorVisible := false }

/-- `showError` (script.js 317-339): reveal the container, set the
message and its styling kind, and — for success-styled messages only —
schedule an auto-hide 3000ms from now.  The code never stores or clears
the timeout id, so the new timer is simply added to the pending ones. -/
def showError (message : String) (isSuccess : Bool) (s : AppState) :
    AppState :=
  { s with errorVisible := true, errorMessage := message,
           errorIsSuccess := isSuccess,
           hideTimers :=
             if isSuccess then s.hideTimers ++ [s.now + 3000]
             else s.hideTimers }

/-- `displayHistory` (script.js 233-254): an empty list hides the
container and returns early (leaving the rendered list as it was); a
nonempty list is rendered and the container revealed. -/
def displayHistory (history : List HistoryItem) (s : AppState) :
    AppState :=
  { s with historyVisible := !history.isEmpty,
           displayedHistory :=
             if history.isEmpty then s.displayedHistory else history }

/-- `displayResult` (script.js 261-277): reveal the result container
and render the verdict. -/
def displayResult (isPhishing : Bool) (s : AppState) : AppState :=
  { s with resultVisible := true, resultIsPhishing := some isPhishing,
           trace := s.trace ++ [Action.verdictRendered] }

/-- `updateStatistics` (script.js 352-363).  The JS parameter is
optional: `updateStatistics()` passes `undefined`, modelled as `none`.
`if (isPhishing)` takes the then-branch only for a truthy value, so
`some true` increments `phishingUrls` and every other argument —
including the argument-less call — increments `safeUrls`.  `totalScans`
always increments. -/
def updateStatistics (isPhishing : Option Bool) (s : AppState) :
    AppState :=
  let st := s.statistics
  let st2 : Statistics :=
    { totalScans := st.totalScans + 1
      safeUrls := if isPhishing = some true then st.safeUrls else st.safeUrls + 1
      phishingUrls := if isPhishing = some true then st.phishingUrls + 1 else st.phishingUrls }
  { s with statistics := st2, trace := s.trace ++ [Action.statsUpdated] }

/-- `addToSessionHistory` (script.js 197-215): build the record with the
current clock as timestamp, unshift-and-cap the array, then refresh the
rendered view. -/
def addToSessionHistory (url : String) (isPhishing : Bool)
    (s : AppState) : AppState :=
  let item : HistoryItem :=
    { url := url, isPhishing := isPhishing, timestamp := s.now }
  let hist := addToSessionHistoryList item s.sessionHistory
  displayHistory hist
    { s with sessionHistory := hist,
             trace := s.trace ++ [Action.historyUpdated] }

/-- `loadHistory` (script.js 221-227): re-render the session history;
its try/catch swallows any error. -/
def loadHistory (s : AppState) : AppState :=
  displayHistory s.sessionHistory s

/-- `clearHistory` (script.js 379-389): empty the session array, clear
and hide the rendered list, then show the success notification. -/
def clearHistory (s : AppState) : AppState :=
  showError "History cleared successfully" true
    { s with sessionHistory := [], displayedHistory := [],
             historyVisible := false }

/-- `checkAnnouncementBanner` (script.js 440-445): hide the banner when
the persisted flag is set. -/
def checkAnnouncementBanner (s : AppState) : AppState :=
  { s with bannerVisible :=
      if s.announcementClosedFlag then false else s.bannerVisible }

/-- `initializePage` (script.js 105-121): hide the transient containers,
then run the three startup sub-tasks.  `loadHistory()` is called first,
then `updateStatistics()` — with no argument — then
`checkAnnouncementBanner()`; all three run synchronously while the
argument array of the `Promise.all` is built. -/
def initializePage (s : AppState) : AppState :=
  checkAnnouncementBanner (updateStatistics none
    (loadHistory (hideResult (hideError (hideLoading s)))))

/-- How the awaited classification fetch settles, as observed by the
rest of `checkUrl`: the response is ok and carries a verdict; the
response is not ok and its body may carry a `detail` string; the fetch
itself rejects with a transport error message; or an exception with the
given message is raised after the response resolved (a malformed
success body, a rendering failure, ...). -/
inductive FetchOutcome where
  | success (isPhishing : Bool)
  | httpError (detail : Option String)
  | networkError (message : String)
  | midException (message : String)
  deriving DecidableEq

/-- Fallback thrown for a non-ok response without a usable detail
(script.js 163): `errorData.detail || 'Failed to check URL'` — the
falsy empty string also selects the fallback. -/
def fallbackHttpMessage : String := "Failed to check URL"

/-- Generic message of the catch block (script.js 182). -/
def genericErrorMessage : String := "An error occurred while checking the URL"

/-- The message of the `Error` thrown for a non-ok response
(script.js 161-163). -/
def httpErrorMessage (detail : Option String) : String :=
  match detail with
  | some d => if d = "" then fallbackHttpMessage else d
  | none => fallbackHttpMessage

/-- The synchronous prefix of `checkUrl` (script.js 127-159): read and
trim the input, show a validation error and return without touching the
controls when validation fails; otherwise disable the input and the
button, swap the button label, show the loading indicator, hide error
and result, and dispatch the classification request. -/
def checkUrlStart (s : AppState) : AppState :=
  match validate s.urlInputValue with
  | Except.error ValidationError.emptyInput =>
      showError "Please enter a URL to check" false s
  | Except.error ValidationError.invalidFormat =>
      showError "Please enter a valid URL" false s
  | Except.ok url =>
      let s1 := { s with urlInputDisabled := true,
                         checkButtonDisabled := true,
                         checkButtonLabel := checkingLabel }
      let s2 := hideResult (hideError (showLoading s1))
      { s2 with requestsSent := s2.requestsSent + 1,
                requestsInFlight := s2.requestsInFlight + 1,
                pendingUrl := url,
                trace := s2.trace ++ [Action.requestSent] }

/-- The rest of the try block once the fetch settles (script.js
161-178), returning the state and the thrown message if an exception
propagates.  A non-ok response throws after parsing the error body; on
success the code hides the loading indicator, renders the verdict,
pushes the session-history record, and only then updates the statistics
and re-renders the history. -/
def checkUrlTryRest (o : FetchOutcome) (s : AppState) :
    AppState × Option String :=
  match o with
  | FetchOutcome.networkError m => (s, some m)
  | FetchOutcome.httpError detail => (s, some (httpErrorMessage detail))
  | FetchOutcome.midException m =>
      ({ s with trace := s.trace ++ [Action.responseResolved] }, some m)
  | FetchOutcome.success isPhishing =>
      let s1 := { s with trace := s.trace ++ [Action.responseResolved] }
      let s2 := displayResult isPhishing (hideLoading s1)
      let s3 := addToSessionHistory s.pendingUrl isPhishing s2
      let s4 := updateStatistics (some isPhishing) s3
      (loadHistory s4, none)

/-- The finally block (script.js 184-189): unconditionally re-enable the
input and the button and restore the default label.  The settled promise
is no longer in flight, and the cleanup counter records one run. -/
def finallyCleanup (s : AppState) : AppState :=
  { s with urlInputDisabled := false, checkButtonDisabled := false,
           checkButtonLabel := defaultCheckLabel,
           requestsInFlight := s.requestsInFlight - 1,
           cleanupRuns := s.cleanupRuns + 1 }

/-- The continuation of `checkUrl` when the fetch settles: the rest of
the try block, the catch block (script.js 180-183: hide loading, show
`error.message || genericErrorMessage`), and the finally block. -/
def checkUrlComplete (o : FetchOutcome) (s : AppState) : AppState :=
  match checkUrlTryRest o s with
  | (s1, none) => finallyCleanup s1
  | (s1, some m) =>
      finallyCleanup (showError
        (if m = "" then genericErrorMessage else m) false (hideLoading s1))

/-- The user-visible events that drive the page: typing into the input,
clicking the check button, pressing Enter in the input, the pending
fetch settling, clicking the clear-history button, and time passing. -/
inductive Event where
  | setInput (value : String)
  | clickCheck
  | pressEnter
  | fetchResolves (o : FetchOutcome)
  | clickClearHistory
  | elapse (dt : Nat)

/-- Fire every pending auto-hide timer that is due: each one runs
`hideError`; expired timers are discarded. -/
def fireDueTimers (s : AppState) : AppState :=
  let due := s.hideTimers.filter (fun t => decide (t ≤ s.now))
  let vis := if due.isEmpty then s.errorVisible else false
  { s with errorVisible := vis,
           hideTimers := s.hideTimers.filter (fun t => decide (s.now < t)) }

/-- One step of the browser event loop.  A disabled input receives no
keypresses and does not accept typing; a disabled button receives no
clicks — the corresponding events are dropped, which is exactly how the
code suppresses re-entrant `checkUrl` invocations.  The clear-history
button is never disabled.  A fetch can only settle while a request is
in flight. -/
def step (s : AppState) (e : Event) : AppState :=
  match e with
  | Event.setInput v =>
      if s.urlInputDisabled then s else { s with urlInputValue := v }
  | Event.clickCheck =>
      if s.checkButtonDisabled then s else checkUrlStart s
  | Event.pressEnter =>
      if s.urlInputDisabled then s else checkUrlStart s
  | Event.fetchResolves o =>
      if s.requestsInFlight = 0 then s else checkUrlComplete o s
  | Event.clickClearHistory => clearHistory s
  | Event.elapse dt => fireDueTimers { s with now := s.now + dt }

/-- The page state right after the script's top level ran: everything
enabled and empty, statistics zeroed (script.js 77-84), no request ever
sent.  `initializePage` (script.js 99) runs as the first event of every
execution considered below. -/
def initialState : AppState :=
  { urlInputValue := "", urlInputDisabled := false,
    checkButtonDisabled := false, checkButtonLabel := defaultCheckLabel,
    loadingVisible := false, errorVisible := false, errorMessage := "",
    errorIsSuccess := false, resultVisible := false,
    resultIsPhishing := none,
    statistics := { totalScans := 0, safeUrls := 0, phishingUrls := 0 },
    sessionHistory := [], displayedHistory := [], historyVisible := false,
    bannerVisible := true, announcementClosedFlag := false,
    requestsSent := 0, requestsInFlight := 0, pendingUrl := "",
    cleanupRuns := 0, trace := [], hideTimers := [], now := 0 }

/-- Run a sequence of user-visible events from the freshly loaded page,
after the startup `initializePage` call (script.js 99). -/
def run (events : List Event) : AppState :=
  events.foldl step (initializePage initialState)

/-- Which of the three startup sub-tasks ran to completion. -/
structure InitOutcome where
  historyCompleted : Bool
  statsCompleted : Bool
  bannerCompleted : Bool
  errorLogged : Bool
  deriving DecidableEq

/-- Modelled from the spec: the failure behaviour of the initialization
sequence (script.js 105-121), with an environment-injected failure
outcome per sub-task — the remote history fetch failing (the variant at
src/unnamed/part_000 178-192), `updateStatistics()` throwing, or
`checkAnnouncementBanner()` throwing.  `loadHistory` wraps its whole
body in try/catch and only logs, so its failure never escapes and it
always completes.  The other two are synchronous calls evaluated in
order while the argument array of the fail-fast `Promise.all` is built,
so an exception in `updateStatistics` reaches the surrounding try/catch
before `checkAnnouncementBanner` is ever invoked. -/
def initSubtasks (_historyFails statsFails bannerFails : Bool) :
    InitOutcome :=
  let historyCompleted := true
  if statsFails then
    { historyCompleted := historyCompleted, statsCompleted := false,
      bannerCompleted := false, errorLogged := true }
  else if bannerFails then
    { historyCompleted := historyCompleted, statsCompleted := true,
      bannerCompleted := false, errorLogged := true }
  else
    { historyCompleted := historyCompleted, statsCompleted := true,
      bannerCompleted := true, errorLogged := false }


/-- The controller invariant behind the re-entrancy guard: at most one
classification request is in flight, and while one is, both the input
and the check button are disabled, so no user event can start another. -/
def ControllerInv (s : AppState) : Prop :=
  s.requestsInFlight ≤ 1 ∧
  (s.requestsInFlight ≠ 0 →
    s.urlInputDisabled = true ∧ s.checkButtonDisabled = true)

end PhishShield

namespace PhishShield

example : isValidUrl "https://example.com" = true := by decide
example : isValidUrl "not a url" = false := by decide
example : isValidUrl "mailto:test@example.com" = true := by decide
example : isValidUrl "phish.example.com/login" = false := by decide
example : specSchemeAuthority "https://example.com/login" = true := by decide
example : specSchemeAuthority "mailto:test@example.com" = false := by decide
example : validate "  https://a.com  " = Except.ok "https://a.com" := by rfl

theorem takeWhile_eq_self_of_all {α : Type} (p : α → Bool) (l : List α)
    (h : l.all p = true) : l.takeWhile p = l := by
  induction l with
  | nil => rfl
  | cons a t ih =>
    simp only [List.all_cons, Bool.and_eq_true] at h
    simp [List.takeWhile_cons_of_pos h.1, ih h.2]

theorem dropWhile_eq_nil_of_all {α : Type} (p : α → Bool) (l : List α)
    (h : l.all p = true) : l.dropWhile p = [] := by
  induction l with
  | nil => rfl
  | cons a t ih =>
    simp only [List.all_cons, Bool.and_eq_true] at h
    simp [List.dropWhile_cons_of_pos h.1, ih h.2]

theorem takeWhile_append_of_all {α : Type} (p : α → Bool) (h t : List α)
    (hh : h.all p = true) (ht : t.takeWhile p = []) :
    (h ++ t).takeWhile p = h := by
  induction h with
  | nil => simpa using ht
  | cons a l ih =>
    simp only [List.all_cons, Bool.and_eq_true] at hh
    simp [List.takeWhile_cons_of_pos hh.1, ih hh.2]

theorem dropWhile_head_not {α : Type} (p : α → Bool) (l : List α) :
    l.dropWhile p = [] ∨
    ∃ a t, l.dropWhile p = a :: t ∧ p a = false := by
  induction l with
  | nil => exact Or.inl rfl
  | cons a t ih =>
    by_cases hpa : p a = true
    · rw [List.dropWhile_cons_of_pos hpa]; exact ih
    · rw [List.dropWhile_cons_of_neg hpa]
      exact Or.inr ⟨a, t, rfl, by simpa using hpa⟩

theorem beq_char_eq_false (c : Char) (n : Nat) (d : Char)
    (hd : d.toNat = n) (h : c.toNat ≠ n) : (c == d) = false := by
  cases hb : c == d
  · rfl
  · exact absurd (hd ▸ congrArg Char.toNat (eq_of_beq hb)) h

theorem specHostChar_toNat (c : Char) (h : specHostChar c = true) :
    (97 ≤ c.toNat ∧ c.toNat ≤ 122) ∨ (65 ≤ c.toNat ∧ c.toNat ≤ 90) ∨
    (48 ≤ c.toNat ∧ c.toNat ≤ 57) ∨ c.toNat = 46 ∨ c.toNat = 45 := by
  simp only [specHostChar, isAsciiAlpha, isAsciiDigit, Bool.or_eq_true,
    decide_eq_true_eq, beq_iff_eq] at h
  rcases h with (((h | h) | h) | h) | h
  · exact Or.inl h
  · exact Or.inr (Or.inl h)
  · exact Or.inr (Or.inr (Or.inl h))
  · subst h; exact Or.inr (Or.inr (Or.inr (Or.inl rfl)))
  · subst h; exact Or.inr (Or.inr (Or.inr (Or.inr rfl)))

theorem specHostChar_facts (c : Char) (h : specHostChar c = true) :
    isAuthorityDelim c = false ∧ isSlashChar c = false ∧
    (c == '@') = false ∧ (c == ':') = false ∧ (c == '/') = false ∧
    forbiddenHostChar c = false := by
  have hn := specHostChar_toNat c h
  refine ⟨?_, ?_, ?_, ?_, ?_, ?_⟩
  · simp only [isAuthorityDelim,
      beq_char_eq_false c 47 '/' rfl (by omega),
      beq_char_eq_false c 92 '\\' rfl (by omega),
      beq_char_eq_false c 63 '?' rfl (by omega),
      beq_char_eq_false c 35 '#' rfl (by omega), Bool.or_self]
  · simp only [isSlashChar,
      beq_char_eq_false c 47 '/' rfl (by omega),
      beq_char_eq_false c 92 '\\' rfl (by omega), Bool.or_self]
  · exact beq_char_eq_false c 64 '@' rfl (by omega)
  · exact beq_char_eq_false c 58 ':' rfl (by omega)
  · exact beq_char_eq_false c 47 '/' rfl (by omega)
  · simp only [forbiddenHostChar, Bool.or_eq_false_iff,
      decide_eq_false_iff_not]
    omega

theorem specSchemeAuthority_accepts (s : String)
    (h : specSchemeAuthority s = true) : urlConstructorAccepts s = true := by
  unfold specSchemeAuthority at h
  unfold urlConstructorAccepts
  cases hs : schemeSplit s.data with
  | none => rw [hs] at h; exact absurd h (by simp)
  | some pr =>
    obtain ⟨scheme, rest⟩ := pr
    rw [hs] at h
    simp only at h ⊢
    split at h
    case isFalse => exact absurd h (by simp)
    case isTrue htake =>
      simp only [Bool.and_eq_true] at h
      obtain ⟨⟨hne, hall⟩, hpath⟩ := h
      split
      case isFalse => rfl
      case isTrue =>
        -- names
        set tail := rest.drop 2 with htail_def
        set host := tail.takeWhile (fun c => !(c == '/')) with hhost_def
        set path := tail.dropWhile (fun c => !(c == '/')) with hpath_def
        have htail : host ++ path = tail :=
          List.takeWhile_append_dropWhile _ _
        have hrest : rest = '/' :: '/' :: tail := by
          conv_lhs => rw [← List.take_append_drop 2 rest]
          rw [htake]; rfl
        -- host is nonempty
        have hhostne : host ≠ [] := by
          intro hcontra
          rw [hcontra] at hne
          exact absurd hne (by simp)
        obtain ⟨hc, hrest2, hcons⟩ : ∃ a t, host = a :: t := by
          cases hhh : host with
          | nil => exact absurd hhh hhostne
          | cons a t => exact ⟨a, t, rfl⟩
        have hhc : specHostChar hc = true := by
          rw [hcons] at hall
          simp only [List.all_cons, Bool.and_eq_true] at hall
          exact hall.1
        -- dropWhile of leading slashes
        have hslash : rest.dropWhile isSlashChar = tail := by
          rw [hrest]
          rw [List.dropWhile_cons_of_pos (by decide),
              List.dropWhile_cons_of_pos (by decide)]
          rw [← htail, hcons]
          exact List.dropWhile_cons_of_neg (show ¬ isSlashChar hc = true by
            rw [(specHostChar_facts hc hhc).2.1]; simp)
        rw [hslash]
        -- the authority section is exactly the host
        have hauth : tail.takeWhile (fun c => !isAuthorityDelim c) = host := by
          rw [← htail]
          apply takeWhile_append_of_all
          · simp only [List.all_eq_true] at hall ⊢
            intro x hx
            rw [(specHostChar_facts x (hall x hx)).1]; rfl
          · rcases dropWhile_head_not (fun c => !(c == '/')) tail with hnil | ⟨a, t, heq, hfa⟩
            · rw [← hpath_def] at hnil; rw [hnil]; rfl
            · rw [← hpath_def] at heq; rw [heq]
              apply List.takeWhile_cons_of_neg
              have ha : a = '/' := by
                have : (a == '/') = true := by
                  cases hb : a == '/'
                  · rw [hb] at hfa; exact absurd hfa (by simp)
                  · rfl
                exact eq_of_beq this
              subst ha; simp [isAuthorityDelim]
        rw [hauth]
        -- no userinfo, no port
        have hallp : ∀ (q : Char → Bool),
            (∀ x, specHostChar x = true → q x = true) → host.all q = true := by
          intro q hq
          simp only [List.all_eq_true] at hall ⊢
          intro x hx
          exact hq x (hall x hx)
        have hat : (host.reverse.takeWhile (fun c => !(c == '@'))).reverse = host := by
          rw [takeWhile_eq_self_of_all _ _ (by
            rw [List.all_reverse]
            exact hallp _ (fun x hx => by rw [(specHostChar_facts x hx).2.2.1]; rfl))]
          exact List.reverse_reverse _
        rw [hat]
        have hcolon : host.takeWhile (fun c => !(c == ':')) = host :=
          takeWhile_eq_self_of_all _ _
            (hallp _ (fun x hx => by rw [(specHostChar_facts x hx).2.2.2.1]; rfl))
        have hport : host.dropWhile (fun c => !(c == ':')) = [] :=
          dropWhile_eq_nil_of_all _ _
            (hallp _ (fun x hx => by rw [(specHostChar_facts x hx).2.2.2.1]; rfl))
        rw [hcolon, hport]
        simp only [List.drop_nil, List.all_nil, Bool.and_true]
        rw [Bool.and_eq_true]
        constructor
        · cases hhh : host.isEmpty
          · rfl
          · rw [List.isEmpty_iff] at hhh; exact absurd hhh hhostne
        · exact hallp _ (fun x hx => by rw [(specHostChar_facts x hx).2.2.2.2.2]; rfl)


/-- C7: For every input string, validation first trims leading/trailing
whitespace; the empty trimmed string fails with `EmptyInputError`;
every non-empty string satisfying scheme+authority+path grammar
validates successfully; `InvalidFormatError` is produced exactly for
the non-empty strings the URL constructor rejects (amended: a non-empty
string that fails scheme+authority grammar but still parses — a scheme
with an opaque path such as `mailto:` — validates successfully rather
than failing).  Validation is a pure Lean function, hence deterministic
by construction. -/
theorem c7_validate (raw : String) :
    (jsTrim raw = "" → validate raw = Except.error ValidationError.emptyInput) ∧
    (specSchemeAuthority (jsTrim raw) = true →
      validate raw = Except.ok (jsTrim raw)) ∧
    (jsTrim raw ≠ "" → isValidUrl (jsTrim raw) = false →
      validate raw = Except.error ValidationError.invalidFormat) := by
  refine ⟨?_, ?_, ?_⟩
  · intro h; simp [validate, h]
  · intro h
    have hne : jsTrim raw ≠ "" := by
      intro hc; rw [hc] at h; exact absurd h (by decide)
    have hok : isValidUrl (jsTrim raw) = true := specSchemeAuthority_accepts _ h
    simp [validate, hne, hok]
  · intro h1 h2; simp [validate, h1, h2]

/-- C7 witness: `c7_validate` evaluated on concrete inputs — a
well-formed `https` URL with path validates, whitespace-only input is
an empty-input error, and `not a url` is an invalid-format error. -/
theorem c7_validate_witness :
    validate "  https://example.com/login  " =
      Except.ok "https://example.com/login" ∧
    validate "   " = Except.error ValidationError.emptyInput ∧
    validate "not a url" = Except.error ValidationError.invalidFormat :=
  ⟨(c7_validate "  https://example.com/login  ").2.1 (by decide),
   (c7_validate "   ").1 (by decide),
   (c7_validate "not a url").2.2 (by decide) (by decide)⟩

/-- C7 counterexample: `mailto:test@example.com` is non-empty and fails
the scheme+authority grammar, yet the code validates it successfully
instead of failing with `InvalidFormatError` — `new URL` accepts any
scheme with an opaque path. -/
theorem c7_counterexample :
    jsTrim "mailto:test@example.com" = "mailto:test@example.com" ∧
    specSchemeAuthority "mailto:test@example.com" = false ∧
    validate "mailto:test@example.com" =
      Except.ok "mailto:test@example.com" :=
  ⟨by decide, by decide, by rfl⟩

/-- C4: pushing a record always inserts at the front, the buffer never
exceeds 10 elements, and pushing 11 records in sequence yields exactly
the 10 most recent in newest-first order with the first-pushed record
absent. -/
theorem c4_history_capacity
    (a1 a2 a3 a4 a5 a6 a7 a8 a9 a10 a11 : HistoryItem)
    (buf : List HistoryItem) (it : HistoryItem) :
    (addToSessionHistoryList it buf).head? = some it ∧
    (addToSessionHistoryList it buf).length ≤ 10 ∧
    ([a1, a2, a3, a4, a5, a6, a7, a8, a9, a10, a11].foldl
        (fun b r => addToSessionHistoryList r b) []
      = [a11, a10, a9, a8, a7, a6, a5, a4, a3, a2]) ∧
    ([a1, a2, a3, a4, a5, a6, a7, a8, a9, a10, a11].Nodup →
      a1 ∉ [a11, a10, a9, a8, a7, a6, a5, a4, a3, a2]) := by
  refine ⟨?_, ?_, by simp [addToSessionHistoryList], ?_⟩
  · simp only [addToSessionHistoryList]
    split
    · rfl
    · rfl
  · simp only [addToSessionHistoryList]
    split
    · simp [List.length_take]
    · rename_i hlen
      simp only [List.length_cons] at hlen ⊢
      omega
  · intro hnd hmem
    rw [List.nodup_cons] at hnd
    simp only [List.mem_cons, List.not_mem_nil, or_false] at hmem
    have hn1 := hnd.1
    simp only [List.mem_cons, List.not_mem_nil, or_false] at hn1
    push_neg at hn1
    obtain ⟨h2, h3, h4, h5, h6, h7, h8, h9, h10, h11⟩ := hn1
    rcases hmem with h | h | h | h | h | h | h | h | h | h <;> simp_all

/-- C4 witness: `c4_history_capacity` on eleven concrete distinct
records. -/
theorem c4_history_capacity_witness :
    (([⟨"u1", false, 1⟩, ⟨"u2", false, 2⟩, ⟨"u3", false, 3⟩,
       ⟨"u4", false, 4⟩, ⟨"u5", false, 5⟩, ⟨"u6", false, 6⟩,
       ⟨"u7", false, 7⟩, ⟨"u8", false, 8⟩, ⟨"u9", false, 9⟩,
       ⟨"u10", false, 10⟩, ⟨"u11", false, 11⟩] : List HistoryItem).foldl
        (fun b r => addToSessionHistoryList r b) []
      = [⟨"u11", false, 11⟩, ⟨"u10", false, 10⟩, ⟨"u9", false, 9⟩,
         ⟨"u8", false, 8⟩, ⟨"u7", false, 7⟩, ⟨"u6", false, 6⟩,
         ⟨"u5", false, 5⟩, ⟨"u4", false, 4⟩, ⟨"u3", false, 3⟩,
         ⟨"u2", false, 2⟩]) ∧
    (⟨"u1", false, 1⟩ : HistoryItem) ∉
      ([⟨"u11", false, 11⟩, ⟨"u10", false, 10⟩, ⟨"u9", false, 9⟩,
        ⟨"u8", false, 8⟩, ⟨"u7", false, 7⟩, ⟨"u6", false, 6⟩,
        ⟨"u5", false, 5⟩, ⟨"u4", false, 4⟩, ⟨"u3", false, 3⟩,
        ⟨"u2", false, 2⟩] : List HistoryItem) :=
  ⟨(c4_history_capacity ⟨"u1", false, 1⟩ ⟨"u2", false, 2⟩ ⟨"u3", false, 3⟩
      ⟨"u4", false, 4⟩ ⟨"u5", false, 5⟩ ⟨"u6", false, 6⟩ ⟨"u7", false, 7⟩
      ⟨"u8", false, 8⟩ ⟨"u9", false, 9⟩ ⟨"u10", false, 10⟩
      ⟨"u11", false, 11⟩ [] ⟨"u1", false, 1⟩).2.2.1,
   (c4_history_capacity ⟨"u1", false, 1⟩ ⟨"u2", false, 2⟩ ⟨"u3", false, 3⟩
      ⟨"u4", false, 4⟩ ⟨"u5", false, 5⟩ ⟨"u6", false, 6⟩ ⟨"u7", false, 7⟩
      ⟨"u8", false, 8⟩ ⟨"u9", false, 9⟩ ⟨"u10", false, 10⟩
      ⟨"u11", false, 11⟩ [] ⟨"u1", false, 1⟩).2.2.2 (by decide)⟩

end PhishShield

namespace PhishShield

theorem checkUrlStart_ok (s : AppState) (url : String)
    (h : validate s.urlInputValue = Except.ok url) :
    checkUrlStart s =
      { s with urlInputDisabled := true, checkButtonDisabled := true,
               checkButtonLabel := checkingLabel, loadingVisible := true,
               errorVisible := false, resultVisible := false,
               requestsSent := s.requestsSent + 1,
               requestsInFlight := s.requestsInFlight + 1,
               pendingUrl := url,
               trace := s.trace ++ [Action.requestSent] } := by
  unfold checkUrlStart
  rw [h]
  rfl

theorem checkUrlStart_error_empty (s : AppState)
    (h : validate s.urlInputValue = Except.error ValidationError.emptyInput) :
    checkUrlStart s = showError "Please enter a URL to check" false s := by
  unfold checkUrlStart
  rw [h]

theorem checkUrlStart_error_format (s : AppState)
    (h : validate s.urlInputValue =
      Except.error ValidationError.invalidFormat) :
    checkUrlStart s = showError "Please enter a valid URL" false s := by
  unfold checkUrlStart
  rw [h]

theorem checkUrlComplete_fields (o : FetchOutcome) (s : AppState) :
    (checkUrlComplete o s).urlInputDisabled = false ∧
    (checkUrlComplete o s).checkButtonDisabled = false ∧
    (checkUrlComplete o s).checkButtonLabel = defaultCheckLabel ∧
    (checkUrlComplete o s).requestsInFlight = s.requestsInFlight - 1 ∧
    (checkUrlComplete o s).cleanupRuns = s.cleanupRuns + 1 ∧
    (checkUrlComplete o s).requestsSent = s.requestsSent := by
  cases o <;>
    simp [checkUrlComplete, checkUrlTryRest, finallyCleanup, showError,
      hideLoading, displayResult, addToSessionHistory, updateStatistics,
      loadHistory, displayHistory]

theorem controllerInv_checkUrlStart (s : AppState)
    (h0 : s.requestsInFlight = 0) : ControllerInv (checkUrlStart s) := by
  cases hv : validate s.urlInputValue with
  | error e =>
    cases e
    · rw [checkUrlStart_error_empty s hv]
      exact ⟨by simp [showError, h0], fun hne => absurd h0 (by simpa [showError] using hne)⟩
    · rw [checkUrlStart_error_format s hv]
      exact ⟨by simp [showError, h0], fun hne => absurd h0 (by simpa [showError] using hne)⟩
  | ok url =>
    rw [checkUrlStart_ok s url hv]
    exact ⟨by simp [h0], fun _ => ⟨rfl, rfl⟩⟩

theorem step_clickCheck_noop (s : AppState)
    (h : s.checkButtonDisabled = true) : step s Event.clickCheck = s := by
  simp [step, h]

theorem step_pressEnter_noop (s : AppState)
    (h : s.urlInputDisabled = true) : step s Event.pressEnter = s := by
  simp [step, h]

theorem step_clickCheck_enabled (s : AppState)
    (h : s.checkButtonDisabled = false) :
    step s Event.clickCheck = checkUrlStart s := by
  simp [step, h]

theorem controllerInv_step (s : AppState) (e : Event)
    (h : ControllerInv s) : ControllerInv (step s e) := by
  obtain ⟨hle, hdis⟩ := h
  have hzero : s.checkButtonDisabled = false → s.requestsInFlight = 0 := by
    intro hb
    rcases Nat.eq_zero_or_pos s.requestsInFlight with h0 | hpos
    · exact h0
    · have := (hdis (Nat.pos_iff_ne_zero.mp hpos)).2
      rw [this] at hb; exact absurd hb (by simp)
  have hzero2 : s.urlInputDisabled = false → s.requestsInFlight = 0 := by
    intro hb
    rcases Nat.eq_zero_or_pos s.requestsInFlight with h0 | hpos
    · exact h0
    · have := (hdis (Nat.pos_iff_ne_zero.mp hpos)).1
      rw [this] at hb; exact absurd hb (by simp)
  cases e with
  | setInput v =>
    simp only [step]
    split
    · exact ⟨hle, hdis⟩
    · exact ⟨hle, hdis⟩
  | clickCheck =>
    simp only [step]
    split
    · exact ⟨hle, hdis⟩
    · rename_i hbtn
      exact controllerInv_checkUrlStart s (hzero (by simpa using hbtn))
  | pressEnter =>
    simp only [step]
    split
    · exact ⟨hle, hdis⟩
    · rename_i hinp
      exact controllerInv_checkUrlStart s (hzero2 (by simpa using hinp))
  | fetchResolves o =>
    simp only [step]
    split
    · exact ⟨hle, hdis⟩
    · have hf := (checkUrlComplete_fields o s).2.2.2.1
      refine ⟨by rw [hf]; omega, fun hne => ?_⟩
      rw [hf] at hne
      exact absurd (by omega) hne
  | clickClearHistory =>
    refine ⟨?_, fun hne => ?_⟩
    · simpa [step, clearHistory, showError] using hle
    · simp only [step, clearHistory, showError] at hne ⊢
      exact hdis hne
  | elapse dt =>
    refine ⟨?_, fun hne => ?_⟩
    · simpa [step, fireDueTimers] using hle
    · simp only [step, fireDueTimers] at hne ⊢
      exact hdis hne

theorem controllerInv_run (events : List Event) :
    ControllerInv (run events) := by
  have h0 : ControllerInv (initializePage initialState) :=
    ⟨by decide, fun hne => absurd (by decide) hne⟩
  suffices hgen : ∀ (l : List Event) (t : AppState),
      ControllerInv t → ControllerInv (l.foldl step t) from
    hgen events (initializePage initialState) h0
  intro l
  induction l with
  | nil => exact fun t ht => ht
  | cons e es ih => exact fun t ht => ih _ (controllerInv_step t e ht)

theorem double_click_requestsSent (s : AppState) :
    (step (step s Event.clickCheck) Event.clickCheck).requestsSent
      = (step s Event.clickCheck).requestsSent := by
  by_cases hb : s.checkButtonDisabled = true
  · rw [step_clickCheck_noop s hb, step_clickCheck_noop s hb]
  · have hb2 : s.checkButtonDisabled = false := by simpa using hb
    rw [step_clickCheck_enabled s hb2]
    cases hv : validate s.urlInputValue with
    | ok url =>
      rw [checkUrlStart_ok s url hv]
      simp [step]
    | error e =>
      cases e
      · rw [checkUrlStart_error_empty s hv]
        rw [step_clickCheck_enabled _ (show (showError "Please enter a URL to check" false s).checkButtonDisabled = false from hb2)]
        rw [checkUrlStart_error_empty _ (show validate (showError "Please enter a URL to check" false s).urlInputValue = Except.error ValidationError.emptyInput from hv)]
        rfl
      · rw [checkUrlStart_error_format s hv]
        rw [step_clickCheck_enabled _ (show (showError "Please enter a valid URL" false s).checkButtonDisabled = false from hb2)]
        rw [checkUrlStart_error_format _ (show validate (showError "Please enter a valid URL" false s).urlInputValue = Except.error ValidationError.invalidFormat from hv)]
        rfl

end PhishShield

namespace PhishShield

/-- C1: for every state reachable by user actions, at most one
classification request is in flight; a `checkUrl` trigger arriving while
one is in flight is dropped without issuing a network request (the
controls are disabled, so the event is a no-op); and two rapid triggers
produce exactly one outbound classification request — the first click
on an idle, validly-filled page dispatches one request, and a second
click never adds another. -/
theorem c1_single_request (events : List Event) :
    (run events).requestsInFlight ≤ 1 ∧
    ((run events).requestsInFlight ≠ 0 →
      step (run events) Event.clickCheck = run events ∧
      step (run events) Event.pressEnter = run events) ∧
    (∀ url, validate (run events).urlInputValue = Except.ok url →
      (run events).checkButtonDisabled = false →
      (step (run events) Event.clickCheck).requestsSent
        = (run events).requestsSent + 1) ∧
    (step (step (run events) Event.clickCheck) Event.clickCheck).requestsSent
      = (step (run events) Event.clickCheck).requestsSent := by
  obtain ⟨hle, hdis⟩ := controllerInv_run events
  refine ⟨hle, fun hne => ?_, fun url hv hb => ?_,
    double_click_requestsSent _⟩
  · exact ⟨step_clickCheck_noop _ (hdis hne).2,
      step_pressEnter_noop _ (hdis hne).1⟩
  · rw [step_clickCheck_enabled _ hb, checkUrlStart_ok _ url hv]

/-- C1 witness: `c1_single_request` on the concrete event sequence that
types a URL and clicks once — the request is in flight and a second
click is a no-op. -/
theorem c1_single_request_witness :
    step (run [Event.setInput "https://a.com", Event.clickCheck])
        Event.clickCheck
      = run [Event.setInput "https://a.com", Event.clickCheck] :=
  ((c1_single_request [Event.setInput "https://a.com",
      Event.clickCheck]).2.1 (by decide)).1

/-- C2: for every `checkUrl` execution that passes validation — ending
in success, an http error, a transport error, or an exception raised
mid-lifecycle — the input field and the check button are unlocked and
the button label restored to its default before the invocation returns,
and this cleanup runs exactly once per invocation. -/
theorem c2_cleanup (s : AppState) (o : FetchOutcome) (url : String)
    (h : validate s.urlInputValue = Except.ok url) :
    (checkUrlComplete o (checkUrlStart s)).urlInputDisabled = false ∧
    (checkUrlComplete o (checkUrlStart s)).checkButtonDisabled = false ∧
    (checkUrlComplete o (checkUrlStart s)).checkButtonLabel
      = defaultCheckLabel ∧
    (checkUrlComplete o (checkUrlStart s)).cleanupRuns
      = s.cleanupRuns + 1 := by
  have hf := checkUrlComplete_fields o (checkUrlStart s)
  refine ⟨hf.1, hf.2.1, hf.2.2.1, ?_⟩
  rw [hf.2.2.2.2.1, checkUrlStart_ok s url h]

/-- C2 witness: `c2_cleanup` on a concrete validated input and a
successful outcome. -/
theorem c2_cleanup_witness :
    (checkUrlComplete (FetchOutcome.success false)
        (checkUrlStart { initialState with
          urlInputValue := "https://example.com" })).urlInputDisabled
      = false ∧
    (checkUrlComplete (FetchOutcome.success false)
        (checkUrlStart { initialState with
          urlInputValue := "https://example.com" })).checkButtonDisabled
      = false ∧
    (checkUrlComplete (FetchOutcome.success false)
        (checkUrlStart { initialState with
          urlInputValue := "https://example.com" })).checkButtonLabel
      = defaultCheckLabel ∧
    (checkUrlComplete (FetchOutcome.success false)
        (checkUrlStart { initialState with
          urlInputValue := "https://example.com" })).cleanupRuns
      = ({ initialState with
          urlInputValue := "https://example.com" } : AppState).cleanupRuns
        + 1 :=
  c2_cleanup _ (FetchOutcome.success false) "https://example.com" (by rfl)

/-- C3: the claim says statistics begin at zero on application load and
equal the number N of successful classifications; but `initializePage`
calls `updateStatistics()` with no argument, so right after load — the
failing input N = 0 — the code reports one total scan and one safe URL.
The invariant `totalScans = safeUrls + phishingUrls` does hold. -/
theorem c3_stats_incremented_on_load :
    (initializePage initialState).statistics.totalScans = 1 ∧
    (initializePage initialState).statistics.safeUrls = 1 ∧
    (initializePage initialState).statistics.phishingUrls = 0 ∧
    (initializePage initialState).statistics.totalScans
      = (initializePage initialState).statistics.safeUrls
        + (initializePage initialState).statistics.phishingUrls :=
  ⟨by decide, by decide, by decide, by decide⟩

/-- C5 (amended): in every successful lifecycle the statistics and
history updates are applied strictly after the classification response
resolves, but the verdict is rendered strictly BEFORE those updates —
the success path emits, in order: request sent, response resolved,
verdict rendered, history updated, statistics updated. -/
theorem c5_render_precedes_updates (s : AppState) (url : String)
    (b : Bool) (h : validate s.urlInputValue = Except.ok url) :
    (checkUrlComplete (FetchOutcome.success b)
        (checkUrlStart { s with trace := [] })).trace
      = [Action.requestSent, Action.responseResolved,
         Action.verdictRendered, Action.historyUpdated,
         Action.statsUpdated] := by
  have h2 : validate ({ s with trace := ([] : List Action) }).urlInputValue
      = Except.ok url := h
  rw [checkUrlStart_ok _ url h2]
  simp [checkUrlComplete, checkUrlTryRest, finallyCleanup, hideLoading,
    displayResult, addToSessionHistory, updateStatistics, loadHistory,
    displayHistory]

/-- C5 witness: `c5_render_precedes_updates` on a concrete successful
run. -/
theorem c5_render_precedes_updates_witness :
    (checkUrlComplete (FetchOutcome.success false)
        (checkUrlStart { { initialState with
          urlInputValue := "https://example.com" } with trace := [] })).trace
      = [Action.requestSent, Action.responseResolved,
         Action.verdictRendered, Action.historyUpdated,
         Action.statsUpdated] :=
  c5_render_precedes_updates
    { initialState with urlInputValue := "https://example.com" }
    "https://example.com" false (by rfl)

/-- C5 counterexample: in the concrete successful run the trace
contains the verdict rendering, and no history or statistics update
occurs before it — refuting the claim that the updates are applied
strictly before the verdict is rendered. -/
theorem c5_counterexample :
    (checkUrlComplete (FetchOutcome.success false)
        (checkUrlStart { initialState with
          urlInputValue := "https://example.com" })).trace.contains
      Action.verdictRendered = true ∧
    ((checkUrlComplete (FetchOutcome.success false)
        (checkUrlStart { initialState with
          urlInputValue := "https://example.com" })).trace.takeWhile
        (fun a => !(a == Action.verdictRendered))).contains
      Action.historyUpdated = false ∧
    ((checkUrlComplete (FetchOutcome.success false)
        (checkUrlStart { initialState with
          urlInputValue := "https://example.com" })).trace.takeWhile
        (fun a => !(a == Action.verdictRendered))).contains
      Action.statsUpdated = false :=
  ⟨by decide, by decide, by decide⟩

/-- C6 (amended): a success notification shown at time T is auto-hidden
by T+3000 if not replaced; but a new `show` call does NOT cancel the
pending auto-dismiss timer — after a replacement at T+1000 the stale
timer still fires at T+3000, hiding the newer message, whose own timer
(due at T+4000) is still pending. -/
theorem c6_timer_not_cancelled (s : AppState) :
    (step (step s Event.clickClearHistory) (Event.elapse 3000)).errorVisible
      = false ∧
    (step (step (step (step s Event.clickClearHistory) (Event.elapse 1000))
        Event.clickClearHistory) (Event.elapse 2000)).errorVisible = false ∧
    (s.now + 4000) ∈ (step (step (step (step s Event.clickClearHistory)
        (Event.elapse 1000)) Event.clickClearHistory)
        (Event.elapse 2000)).hideTimers := by
  refine ⟨?_, ?_, ?_⟩ <;>
    simp [step, clearHistory, showError, fireDueTimers]

/-- C6 counterexample: show a success notification at time 0, replace
it at 1000, let the clock reach 3000 — the notification container is
hidden (the original timer fired against the newer message, which the
claim says cannot happen) while the newer message's own timer, due at
4000, is still pending; at 1000 the message was still visible. -/
theorem c6_counterexample :
    (run [Event.clickClearHistory, Event.elapse 1000,
          Event.clickClearHistory, Event.elapse 2000]).errorVisible
      = false ∧
    (run [Event.clickClearHistory, Event.elapse 1000,
          Event.clickClearHistory, Event.elapse 2000]).hideTimers
      = [4000] ∧
    (run [Event.clickClearHistory, Event.elapse 1000]).errorVisible
      = true :=
  ⟨by decide, by decide, by decide⟩

/-- C8 (amended): when the classifier returns a non-success response
whose body carries a non-empty textual `detail`, the displayed message
equals that detail exactly; the generic fallback is used when the field
is absent — or empty, since JavaScript `||` treats the empty string as
falsy; statistics and session history are unchanged and the input is
re-enabled. -/
theorem c8_http_error (s : AppState) (url : String) (d : String)
    (h : validate s.urlInputValue = Except.ok url) (hd : d ≠ "") :
    (checkUrlComplete (FetchOutcome.httpError (some d))
        (checkUrlStart s)).errorMessage = d ∧
    (checkUrlComplete (FetchOutcome.httpError (some d))
        (checkUrlStart s)).errorVisible = true ∧
    (checkUrlComplete (FetchOutcome.httpError (some d))
        (checkUrlStart s)).statistics = s.statistics ∧
    (checkUrlComplete (FetchOutcome.httpError (some d))
        (checkUrlStart s)).sessionHistory = s.sessionHistory ∧
    (checkUrlComplete (FetchOutcome.httpError (some d))
        (checkUrlStart s)).urlInputDisabled = false ∧
    (checkUrlComplete (FetchOutcome.httpError (some d))
        (checkUrlStart s)).checkButtonDisabled = false ∧
    (checkUrlComplete (FetchOutcome.httpError none)
        (checkUrlStart s)).errorMessage = fallbackHttpMessage := by
  rw [checkUrlStart_ok s url h]
  have hfb : fallbackHttpMessage ≠ "" := by decide
  simp [checkUrlComplete, checkUrlTryRest, finallyCleanup, showError,
    hideLoading, httpErrorMessage, hd, hfb]

/-- C8 witness: `c8_http_error` with the spec's scenario, detail
`rate limited`. -/
theorem c8_http_error_witness :
    (checkUrlComplete (FetchOutcome.httpError (some "rate limited"))
        (checkUrlStart { initialState with
          urlInputValue := "https://example.com" })).errorMessage
      = "rate limited" ∧
    (checkUrlComplete (FetchOutcome.httpError (some "rate limited"))
        (checkUrlStart { initialState with
          urlInputValue := "https://example.com" })).errorVisible = true ∧
    (checkUrlComplete (FetchOutcome.httpError (some "rate limited"))
        (checkUrlStart { initialState with
          urlInputValue := "https://example.com" })).statistics
      = ({ initialState with
          urlInputValue := "https://example.com" } : AppState).statistics ∧
    (checkUrlComplete (FetchOutcome.httpError (some "rate limited"))
        (checkUrlStart { initialState with
          urlInputValue := "https://example.com" })).sessionHistory
      = ({ initialState with
          urlInputValue := "https://example.com" } : AppState).sessionHistory ∧
    (checkUrlComplete (FetchOutcome.httpError (some "rate limited"))
        (checkUrlStart { initialState with
          urlInputValue := "https://example.com" })).urlInputDisabled
      = false ∧
    (checkUrlComplete (FetchOutcome.httpError (some "rate limited"))
        (checkUrlStart { initialState with
          urlInputValue := "https://example.com" })).checkButtonDisabled
      = false ∧
    (checkUrlComplete (FetchOutcome.httpError none)
        (checkUrlStart { initialState with
          urlInputValue := "https://example.com" })).errorMessage
      = fallbackHttpMessage :=
  c8_http_error _ "https://example.com" "rate limited" (by rfl) (by decide)

/-- C8 counterexample: a non-success response whose body carries the
textual detail field with value `""` displays the generic fallback, not
the detail text — refuting "the fallback is used only when the field is
absent". -/
theorem c8_counterexample :
    (checkUrlComplete (FetchOutcome.httpError (some ""))
        (checkUrlStart { initialState with
          urlInputValue := "https://example.com" })).errorMessage
      = "Failed to check URL" ∧
    ("Failed to check URL" : String) ≠ "" :=
  ⟨by decide, by decide⟩

/-- C9 (amended): the history sub-task always completes — its internal
try/catch contains any fetch failure — and a failure of the last
sub-task leaves the other two complete; but because `updateStatistics`
and `checkAnnouncementBanner` are evaluated in order while the
fail-fast `Promise.all` argument array is built, a failure in
`updateStatistics` prevents `checkAnnouncementBanner` from completing. -/
theorem c9_init_independence (hf sf bf : Bool) :
    (initSubtasks hf sf bf).historyCompleted = true ∧
    (sf = false → (initSubtasks hf sf bf).statsCompleted = true) ∧
    (sf = false → bf = false →
      (initSubtasks hf sf bf).bannerCompleted = true) ∧
    (sf = true → (initSubtasks hf sf bf).bannerCompleted = false) := by
  cases sf <;> cases bf <;> simp [initSubtasks]

/-- C9 witness: `c9_init_independence` with only the history fetch
failing — the other two sub-tasks complete. -/
theorem c9_init_independence_witness :
    (initSubtasks true false false).historyCompleted = true ∧
    (initSubtasks true false false).statsCompleted = true ∧
    (initSubtasks true false false).bannerCompleted = true :=
  ⟨(c9_init_independence true false false).1,
   (c9_init_independence true false false).2.1 rfl,
   (c9_init_independence true false false).2.2.1 rfl rfl⟩

/-- C9 counterexample: a failure in the statistics sub-task alone
prevents the banner sub-task from completing — refuting the claim that
a failure in any one sub-task does not prevent the other two. -/
theorem c9_counterexample :
    (initSubtasks false true false).historyCompleted = true ∧
    (initSubtasks false true false).bannerCompleted = false :=
  ⟨rfl, rfl⟩

/-- C10: clearing the history empties the session buffer and its
rendered view — a subsequent history view shows no entries — while the
statistics counters are unchanged. -/
theorem c10_clear_history (s : AppState) :
    (clearHistory s).sessionHistory = [] ∧
    (clearHistory s).displayedHistory = [] ∧
    (clearHistory s).historyVisible = false ∧
    (clearHistory s).statistics = s.statistics :=
  ⟨rfl, rfl, rfl, rfl⟩

end PhishShield


